import Mathlib

/-!
Shallow embedding of the Tectonic I/O virtualization layer, covering
`src/io/stack.rs` (the `IoStack` ordered-fallback dispatcher) and
`src/errors.rs` (the `error_chain!` error contract, the
`dump_uncolorized` fallback renderer, and the `DefinitelySame` weak
equivalence used by tests).
-/

/-- Modelled from the spec: `OpenResult<H>` is declared in `src/io/mod.rs`,
which is not among the visible sources; `src/io/stack.rs` imports it and
matches on `OpenResult::NotAvailable` versus everything else.  Per the spec
it is a three-way outcome: `Success(H)` (handle acquired), `NotAvailable`
(this provider has no opinion), or `Error(E)` (a definitive failure).  The
error payload is abstracted as a type parameter `E`. -/
inductive OpenResult (E H : Type) : Type where
  | Success : H → OpenResult E H
  | NotAvailable : OpenResult E H
  | Error : E → OpenResult E H
deriving DecidableEq

/-- A result is definitive when it is `Success` or `Error` (anything but
`NotAvailable`); definitive results short-circuit the dispatcher. -/
def OpenResult.definitive {E H : Type} (r : OpenResult E H) : Prop :=
  (∃ h, r = OpenResult.Success h) ∨ (∃ e, r = OpenResult.Error e)

/-- Modelled from the spec: the `IoProvider` trait is declared in
`src/io/mod.rs`, which is not among the visible sources; `src/io/stack.rs`
invokes exactly these five capability operations on each subordinate
provider.  A provider is modelled by what each operation returns for each
argument; `E` is the error type, `Hi`/`Ho` the input/output handle types,
and `St` the opaque status-backend argument threaded to the input
operations (the output operations take no status argument in the source). -/
structure IoProvider (E Hi Ho St : Type) : Type where
  output_open_name : String → OpenResult E Ho
  output_open_stdout : OpenResult E Ho
  input_open_name : String → St → OpenResult E Hi
  input_open_primary : St → OpenResult E Hi
  input_open_format : String → St → OpenResult E Hi

/-- The `IoStack` of `src/io/stack.rs`: an `IoProvider` that delegates to an
ordered list of subordinate providers (`items: Vec<&'a mut IoProvider>`). -/
structure IoStack (E Hi Ho St : Type) : Type where
  items : List (IoProvider E Hi Ho St)

/-- `IoStack::new` (`src/io/stack.rs` lines 22-26): wraps the caller-supplied
provider list unchanged. -/
@[reducible]
def IoStack.new {E Hi Ho St : Type} (items : List (IoProvider E Hi Ho St)) :
    IoStack E Hi Ho St :=
  { items := items }

/-- The dispatch loop shared verbatim by all five `IoProvider` methods of
`IoStack` (`src/io/stack.rs`): walk the items in order, invoke the operation
`f` on each, `continue` past `NotAvailable`, return any other result
immediately, and return `NotAvailable` if the list is exhausted. -/
def tryEach {α E H : Type} (f : α → OpenResult E H) : List α → OpenResult E H
  | [] => OpenResult.NotAvailable
  | a :: rest =>
    match f a with
    | OpenResult.NotAvailable => tryEach f rest
    | r => r

/-- `output_open_name` for `IoStack` (`src/io/stack.rs` lines 31-42). -/
@[reducible]
def IoStack.output_open_name {E Hi Ho St : Type} (s : IoStack E Hi Ho St)
    (name : String) : OpenResult E Ho :=
  tryEach (fun item => item.output_open_name name) s.items

/-- `output_open_stdout` for `IoStack` (`src/io/stack.rs` lines 44-55). -/
@[reducible]
def IoStack.output_open_stdout {E Hi Ho St : Type} (s : IoStack E Hi Ho St) :
    OpenResult E Ho :=
  tryEach (fun item => item.output_open_stdout) s.items

/-- `input_open_name` for `IoStack` (`src/io/stack.rs` lines 57-68). -/
@[reducible]
def IoStack.input_open_name {E Hi Ho St : Type} (s : IoStack E Hi Ho St)
    (name : String) (status : St) : OpenResult E Hi :=
  tryEach (fun item => item.input_open_name name status) s.items

/-- `input_open_primary` for `IoStack` (`src/io/stack.rs` lines 70-81). -/
@[reducible]
def IoStack.input_open_primary {E Hi Ho St : Type} (s : IoStack E Hi Ho St)
    (status : St) : OpenResult E Hi :=
  tryEach (fun item => item.input_open_primary status) s.items

/-- `input_open_format` for `IoStack` (`src/io/stack.rs` lines 83-94). -/
@[reducible]
def IoStack.input_open_format {E Hi Ho St : Type} (s : IoStack E Hi Ho St)
    (name : String) (status : St) : OpenResult E Hi :=
  tryEach (fun item => item.input_open_format name status) s.items

/-- Instrumented observation of the dispatch loop: the list of items on which
the operation `f` is actually invoked, in invocation order.  An item is
invoked exactly when every earlier item returned `NotAvailable`, and the loop
stops right after the first definitive result. -/
def tryEachInvoked {α E H : Type} (f : α → OpenResult E H) : List α → List α
  | [] => []
  | a :: rest =>
    match f a with
    | OpenResult.NotAvailable => a :: tryEachInvoked f rest
    | _ => [a]

/-- The providers a stack consults, in order, during one `input_open_name`
dispatch call. -/
@[reducible]
def IoStack.input_open_name_invoked {E Hi Ho St : Type} (s : IoStack E Hi Ho St)
    (name : String) (status : St) : List (IoProvider E Hi Ho St) :=
  tryEachInvoked (fun item => item.input_open_name name status) s.items

/-- The providers a stack consults, in order, during one `output_open_name`
dispatch call. -/
@[reducible]
def IoStack.output_open_name_invoked {E Hi Ho St : Type} (s : IoStack E Hi Ho St)
    (name : String) : List (IoProvider E Hi Ho St) :=
  tryEachInvoked (fun item => item.output_open_name name) s.items

/-- A concrete read-only provider realizing the spec's shadow-law scenario: it
serves a fixed association list of named files, yielding the file's content
as the input handle, and has no opinion on any other operation. -/
def fileProvider {E Ho St : Type} (files : List (String × String)) :
    IoProvider E String Ho St where
  output_open_name := fun _ => OpenResult.NotAvailable
  output_open_stdout := OpenResult.NotAvailable
  input_open_name := fun name _ =>
    match files.lookup name with
    | some content => OpenResult.Success content
    | none => OpenResult.NotAvailable
  input_open_primary := fun _ => OpenResult.NotAvailable
  input_open_format := fun _ _ => OpenResult.NotAvailable

/-- A provider that answers every operation with a fixed result (`rin` for
the three input operations, `rout` for the two output operations). -/
def constProvider {E Hi Ho St : Type} (rin : OpenResult E Hi)
    (rout : OpenResult E Ho) : IoProvider E Hi Ho St where
  output_open_name := fun _ => rout
  output_open_stdout := rout
  input_open_name := fun _ _ => rin
  input_open_primary := fun _ => rin
  input_open_format := fun _ _ => rin

/-- Test fixture: a provider with no opinion on any operation. -/
def naProvider : IoProvider String Nat Nat Unit :=
  constProvider OpenResult.NotAvailable OpenResult.NotAvailable

/-- Test fixture: a provider that succeeds on every operation. -/
def okProvider : IoProvider String Nat Nat Unit :=
  constProvider (OpenResult.Success 5) (OpenResult.Success 7)

/-- Test fixture: a provider that reports a path-forbidden error on every
operation. -/
def forbidProvider : IoProvider String Nat Nat Unit :=
  constProvider (OpenResult.Error "forbidden") (OpenResult.Error "forbidden")

/-- The `ErrorKind` generated by the `error_chain!` invocation in
`src/errors.rs`: the implicit `Msg(String)` variant, one variant per
`foreign_links` entry (lines 19-29; the opaque foreign error is modelled by
its rendered message), and the four custom variants of the `errors` block
(lines 31-51). -/
inductive ErrorKind : Type where
  | Msg : String → ErrorKind
  | AppDirs : String → ErrorKind
  | Flate2 : String → ErrorKind
  | Hyper : String → ErrorKind
  | Io : String → ErrorKind
  | Nul : String → ErrorKind
  | ParseInt : String → ErrorKind
  | TomlDe : String → ErrorKind
  | Utf8 : String → ErrorKind
  | Zip : String → ErrorKind
  | BadLength : Nat → Nat → ErrorKind
  | NotSeekable : ErrorKind
  | NotSizeable : ErrorKind
  | PathForbidden : String → ErrorKind
deriving DecidableEq

/-- The `Display` rendering of each `ErrorKind`, from the `display(...)`
clauses of the `errors` block in `src/errors.rs` (lines 31-51); `Msg` and the
foreign variants render their carried message. -/
def ErrorKind.display : ErrorKind → String
  | ErrorKind.Msg s => s
  | ErrorKind.AppDirs m => m
  | ErrorKind.Flate2 m => m
  | ErrorKind.Hyper m => m
  | ErrorKind.Io m => m
  | ErrorKind.Nul m => m
  | ErrorKind.ParseInt m => m
  | ErrorKind.TomlDe m => m
  | ErrorKind.Utf8 m => m
  | ErrorKind.Zip m => m
  | ErrorKind.BadLength expected observed =>
      "expected length " ++ Nat.repr expected ++ "; found " ++ Nat.repr observed
  | ErrorKind.NotSeekable => "this stream is not seekable"
  | ErrorKind.NotSizeable => "the size of this stream cannot be determined"
  | ErrorKind.PathForbidden path => "access to the path " ++ path ++ " is forbidden"

/-- The `Error` type generated by `error_chain!` in `src/errors.rs`: a kind
together with state holding an optional captured backtrace (modelled by its
rendered text) and an optional chained cause. -/
inductive ChainedError : Type where
  | mk : ErrorKind → Option String → Option ChainedError → ChainedError

/-- The kind of a `ChainedError` (`Error::kind()`). -/
def ChainedError.kind : ChainedError → ErrorKind
  | ChainedError.mk k _ _ => k

/-- The captured backtrace of a `ChainedError` (`Error::backtrace()`). -/
def ChainedError.backtr : ChainedError → Option String
  | ChainedError.mk _ b _ => b

/-- The chained cause of a `ChainedError`. -/
def ChainedError.cause : ChainedError → Option ChainedError
  | ChainedError.mk _ _ c => c

/-- Modelled from the spec: `Error::iter()` comes from the `error_chain`
crate, not the visible sources; per the spec the rendering, when iterated,
yields the top-level message followed by each chained cause, most specific
first.  Each item is the `Display` text of the corresponding kind. -/
def errorIter : ChainedError → List String
  | ChainedError.mk k _ none => [k.display]
  | ChainedError.mk k _ (some c) => k.display :: errorIter c

/-- The messages of the chained causes of an error, most specific first
(everything `errorIter` yields after the top-level message). -/
def causeMessages (e : ChainedError) : List String :=
  match e.cause with
  | none => []
  | some c => errorIter c

/-- Modelled from the spec: `chain_err` comes from the `error_chain` crate
(invoked via the `ctry!` macro of `src/errors.rs`), not the visible sources;
per the spec it wraps a lower-level failure with an added context message,
producing a message-kind error whose cause is the original error. -/
def ChainedError.chain_err (e : ChainedError) (msg : String) : ChainedError :=
  ChainedError.mk (ErrorKind.Msg msg) e.backtr (some e)

/-- The line-emission loop of `Error::dump_uncolorized` (`src/errors.rs`
lines 84-87): one line per chain item, the running prefix starting as
`error:` and switching to `caused by:` after the first line. -/
def dumpLoop : String → List String → List String
  | _, [] => []
  | pfx, item :: rest => (pfx ++ " " ++ item) :: dumpLoop "caused by:" rest

/-- `Error::dump_uncolorized` (`src/errors.rs` lines 80-93), modelled as the
list of lines written to the error stream: the prefixed chain lines, then,
when a backtrace was captured, a `debugging:` header line and the backtrace
itself. -/
def ChainedError.dump_uncolorized (e : ChainedError) : List String :=
  dumpLoop "error:" (errorIter e) ++
    (match e.backtr with
     | some b => ["debugging: backtrace follows:", b]
     | none => [])

/-- Rust's `std::result::Result<T, E>`, as used by the `DefinitelySame`
impl for `StdResult` in `src/errors.rs`. -/
inductive StdResult (T E : Type) : Type where
  | Ok : T → StdResult T E
  | Err : E → StdResult T E
deriving DecidableEq

/-- The `DefinitelySame` helper trait of `src/errors.rs` (lines 106-108):
a weak equivalence test returning true only when the two values are
definitely equivalent. -/
class DefinitelySame (α : Type) : Type where
  definitely_same : α → α → Bool

/-- `DefinitelySame for ErrorKind` (`src/errors.rs` lines 122-134): when
`self` is `Msg(s)`, compare `s` with the other value's message if it is also
a `Msg`; in every other case return false. -/
def ErrorKind.definitely_same (self other : ErrorKind) : Bool :=
  match self with
  | ErrorKind.Msg s =>
    match other with
    | ErrorKind.Msg o => s == o
    | _ => false
  | _ => false

instance : DefinitelySame ErrorKind := ⟨ErrorKind.definitely_same⟩

/-- `DefinitelySame for Error` (`src/errors.rs` lines 136-141): compare the
kinds only, ignoring backtrace and cause chain. -/
def ChainedError.definitely_same (self other : ChainedError) : Bool :=
  self.kind.definitely_same other.kind

instance : DefinitelySame ChainedError := ⟨ChainedError.definitely_same⟩

/-- `DefinitelySame for StdResult<T, E>` (`src/errors.rs` lines 143-158):
`Ok` matches only `Ok` and `Err` only `Err`, comparing the payloads with
their own `definitely_same`. -/
def StdResult.definitely_same {T E : Type} [DefinitelySame T]
    [DefinitelySame E] (self other : StdResult T E) : Bool :=
  match self with
  | StdResult.Ok st =>
    match other with
    | StdResult.Ok ot => DefinitelySame.definitely_same st ot
    | StdResult.Err _ => false
  | StdResult.Err se =>
    match other with
    | StdResult.Err oe => DefinitelySame.definitely_same se oe
    | StdResult.Ok _ => false

instance {T E : Type} [DefinitelySame T] [DefinitelySame E] :
    DefinitelySame (StdResult T E) := ⟨StdResult.definitely_same⟩

/-- Whether a file is accessed for reading or for writing, as observed by
the pass-dependency detector. -/
inductive AccessKind : Type where
  | Read : AccessKind
  | Write : AccessKind
deriving DecidableEq

/-- Modelled from the spec: the detector's `AccessRecord` — file name, access
kind, and a content fingerprint (modelled as the content itself). -/
structure AccessRecord : Type where
  name : String
  kind : AccessKind
  content : String
deriving DecidableEq

/-- The per-pass verdict consumed by the driver. -/
inductive PassVerdict : Type where
  | Converged : PassVerdict
  | NeedsAnotherPass : PassVerdict
  | Inconclusive : PassVerdict
deriving DecidableEq

/-- Modelled from the spec: divergence within one pass — some file was both
read during the pass and written, in the same pass, with content different
from what was read.  The doc comment of `IoStack` (`src/io/stack.rs` lines
11-14) declares this read/write-order bookkeeping but its implementation is
not among the visible sources. -/
def needsAnotherPass (events : List AccessRecord) : Bool :=
  events.any fun w =>
    match w.kind with
    | AccessKind.Write =>
      events.any fun r =>
        match r.kind with
        | AccessKind.Read => r.name == w.name && r.content != w.content
        | AccessKind.Write => false
    | AccessKind.Read => false

/-- Modelled from the spec: the detector's verdict for one completed pass
given the sequence of opens observed during it — `NeedsAnotherPass` on
divergence, `Converged` otherwise. -/
def passVerdict (events : List AccessRecord) : PassVerdict :=
  if needsAnotherPass events then PassVerdict.NeedsAnotherPass
  else PassVerdict.Converged

theorem tryEach_nil {α E H : Type} (f : α → OpenResult E H) :
    tryEach f [] = OpenResult.NotAvailable := rfl

theorem tryEach_cons_na {α E H : Type} (f : α → OpenResult E H) (a : α)
    (l : List α) (h : f a = OpenResult.NotAvailable) :
    tryEach f (a :: l) = tryEach f l := by
  simp [tryEach, h]

theorem tryEach_cons_def {α E H : Type} (f : α → OpenResult E H) (a : α)
    (l : List α) (h : f a ≠ OpenResult.NotAvailable) :
    tryEach f (a :: l) = f a := by
  cases hfa : f a with
  | Success hdl => simp [tryEach, hfa]
  | NotAvailable => exact absurd hfa h
  | Error e => simp [tryEach, hfa]

theorem tryEach_all_na {α E H : Type} (f : α → OpenResult E H) (l : List α)
    (h : ∀ a ∈ l, f a = OpenResult.NotAvailable) :
    tryEach f l = OpenResult.NotAvailable := by
  induction l with
  | nil => rfl
  | cons a rest ih =>
    rw [tryEach_cons_na f a rest (h a (List.mem_cons_self a rest))]
    exact ih (fun b hb => h b (List.mem_cons_of_mem a hb))

theorem tryEach_take_append {α E H : Type} (f : α → OpenResult E H)
    (l : List α) (i : Nat) (h : i < l.length)
    (hb : ∀ j (hj : j < i), f (l.get ⟨j, Nat.lt_trans hj h⟩) = OpenResult.NotAvailable)
    (hd : f (l.get ⟨i, h⟩) ≠ OpenResult.NotAvailable) (qs : List α) :
    tryEach f (l.take (i + 1) ++ qs) = f (l.get ⟨i, h⟩) := by
  induction l generalizing i with
  | nil => exact absurd h (Nat.not_lt_zero i)
  | cons a rest ih =>
    cases i with
    | zero =>
      simp only [List.take, List.cons_append, List.get]
      exact tryEach_cons_def f a _ hd
    | succ i =>
      have ha : f a = OpenResult.NotAvailable := hb 0 (Nat.succ_pos i)
      have h' : i < rest.length := Nat.lt_of_succ_lt_succ h
      simp only [List.take, List.cons_append]
      rw [tryEach_cons_na f a _ ha]
      exact ih i h' (fun j hj => hb (j + 1) (Nat.succ_lt_succ hj)) hd

theorem tryEach_first_def {α E H : Type} (f : α → OpenResult E H)
    (l : List α) (i : Nat) (h : i < l.length)
    (hb : ∀ j (hj : j < i), f (l.get ⟨j, Nat.lt_trans hj h⟩) = OpenResult.NotAvailable)
    (hd : f (l.get ⟨i, h⟩) ≠ OpenResult.NotAvailable) :
    tryEach f l = f (l.get ⟨i, h⟩) := by
  have := tryEach_take_append f l i h hb hd (l.drop (i + 1))
  rwa [List.take_append_drop] at this

theorem tryEachInvoked_isTake {α E H : Type} (f : α → OpenResult E H)
    (l : List α) : ∃ k, k ≤ l.length ∧ tryEachInvoked f l = l.take k := by
  induction l with
  | nil => exact ⟨0, Nat.le_refl 0, rfl⟩
  | cons a rest ih =>
    cases hfa : f a with
    | NotAvailable =>
      obtain ⟨k, hk, hek⟩ := ih
      refine ⟨k + 1, Nat.succ_le_succ hk, ?_⟩
      simp [tryEachInvoked, hfa, List.take, hek]
    | Success hdl =>
      exact ⟨1, Nat.succ_le_succ (Nat.zero_le _), by simp [tryEachInvoked, hfa]⟩
    | Error e =>
      exact ⟨1, Nat.succ_le_succ (Nat.zero_le _), by simp [tryEachInvoked, hfa]⟩

theorem definitive_ne_na {E H : Type} (r : OpenResult E H)
    (h : r.definitive) : r ≠ OpenResult.NotAvailable := by
  rcases h with ⟨hdl, rfl⟩ | ⟨e, rfl⟩ <;> intro hc <;> exact OpenResult.noConfusion hc

theorem dumpLoop_caused_by (l : List String) :
    dumpLoop "caused by:" l = l.map (fun m => "caused by: " ++ m) := by
  induction l with
  | nil => rfl
  | cons a rest ih => simp [dumpLoop, ih]

theorem errorIter_eq (e : ChainedError) :
    errorIter e = e.kind.display :: causeMessages e := by
  cases e with
  | mk k b c => cases c <;> rfl

/-- Claim C1: for every `IoStack` built from a provider list and each of the
five capability operations, if every provider before index `i` returns
`NotAvailable` and the provider at index `i` returns `Success` or `Error`,
then the stack's result equals that provider's result exactly, and no
provider after index `i` is invoked: the result is unchanged when everything
after index `i` is replaced by an arbitrary provider list. -/
theorem iostack_first_definitive_wins (E Hi Ho St : Type)
    (ps : List (IoProvider E Hi Ho St)) (i : Nat) (h : i < ps.length) :
    (∀ name : String,
      (∀ j (hj : j < i),
        (ps.get ⟨j, Nat.lt_trans hj h⟩).output_open_name name = OpenResult.NotAvailable) →
      ((ps.get ⟨i, h⟩).output_open_name name).definitive →
      (IoStack.new ps).output_open_name name = (ps.get ⟨i, h⟩).output_open_name name ∧
      ∀ qs, (IoStack.new (ps.take (i + 1) ++ qs)).output_open_name name =
        (ps.get ⟨i, h⟩).output_open_name name) ∧
    ((∀ j (hj : j < i),
        (ps.get ⟨j, Nat.lt_trans hj h⟩).output_open_stdout = OpenResult.NotAvailable) →
      ((ps.get ⟨i, h⟩).output_open_stdout).definitive →
      (IoStack.new ps).output_open_stdout = (ps.get ⟨i, h⟩).output_open_stdout ∧
      ∀ qs, (IoStack.new (ps.take (i + 1) ++ qs)).output_open_stdout =
        (ps.get ⟨i, h⟩).output_open_stdout) ∧
    (∀ (name : String) (status : St),
      (∀ j (hj : j < i),
        (ps.get ⟨j, Nat.lt_trans hj h⟩).input_open_name name status = OpenResult.NotAvailable) →
      ((ps.get ⟨i, h⟩).input_open_name name status).definitive →
      (IoStack.new ps).input_open_name name status = (ps.get ⟨i, h⟩).input_open_name name status ∧
      ∀ qs, (IoStack.new (ps.take (i + 1) ++ qs)).input_open_name name status =
        (ps.get ⟨i, h⟩).input_open_name name status) ∧
    (∀ status : St,
      (∀ j (hj : j < i),
        (ps.get ⟨j, Nat.lt_trans hj h⟩).input_open_primary status = OpenResult.NotAvailable) →
      ((ps.get ⟨i, h⟩).input_open_primary status).definitive →
      (IoStack.new ps).input_open_primary status = (ps.get ⟨i, h⟩).input_open_primary status ∧
      ∀ qs, (IoStack.new (ps.take (i + 1) ++ qs)).input_open_primary status =
        (ps.get ⟨i, h⟩).input_open_primary status) ∧
    (∀ (name : String) (status : St),
      (∀ j (hj : j < i),
        (ps.get ⟨j, Nat.lt_trans hj h⟩).input_open_format name status = OpenResult.NotAvailable) →
      ((ps.get ⟨i, h⟩).input_open_format name status).definitive →
      (IoStack.new ps).input_open_format name status = (ps.get ⟨i, h⟩).input_open_format name status ∧
      ∀ qs, (IoStack.new (ps.take (i + 1) ++ qs)).input_open_format name status =
        (ps.get ⟨i, h⟩).input_open_format name status) := by
  refine ⟨?_, ?_, ?_, ?_, ?_⟩
  · intro name hb hd
    exact ⟨tryEach_first_def (fun item => item.output_open_name name) ps i h hb
            (definitive_ne_na _ hd),
          fun qs => tryEach_take_append (fun item => item.output_open_name name) ps i h hb
            (definitive_ne_na _ hd) qs⟩
  · intro hb hd
    exact ⟨tryEach_first_def (fun item => item.output_open_stdout) ps i h hb
            (definitive_ne_na _ hd),
          fun qs => tryEach_take_append (fun item => item.output_open_stdout) ps i h hb
            (definitive_ne_na _ hd) qs⟩
  · intro name status hb hd
    exact ⟨tryEach_first_def (fun item => item.input_open_name name status) ps i h hb
            (definitive_ne_na _ hd),
          fun qs => tryEach_take_append (fun item => item.input_open_name name status) ps i h hb
            (definitive_ne_na _ hd) qs⟩
  · intro status hb hd
    exact ⟨tryEach_first_def (fun item => item.input_open_primary status) ps i h hb
            (definitive_ne_na _ hd),
          fun qs => tryEach_take_append (fun item => item.input_open_primary status) ps i h hb
            (definitive_ne_na _ hd) qs⟩
  · intro name status hb hd
    exact ⟨tryEach_first_def (fun item => item.input_open_format name status) ps i h hb
            (definitive_ne_na _ hd),
          fun qs => tryEach_take_append (fun item => item.input_open_format name status) ps i h hb
            (definitive_ne_na _ hd) qs⟩

/-- Concrete instantiation of `iostack_first_definitive_wins`: with one
`NotAvailable` provider ahead of a succeeding provider, the stack returns
the second provider's success. -/
theorem iostack_first_definitive_wins_witness :
    (IoStack.new [naProvider, okProvider]).output_open_name "x" =
      OpenResult.Success 7 := by
  have h : (1 : Nat) < ([naProvider, okProvider] :
      List (IoProvider String Nat Nat Unit)).length := by decide
  have hb : ∀ j (hj : j < 1),
      (([naProvider, okProvider] : List (IoProvider String Nat Nat Unit)).get
        ⟨j, Nat.lt_trans hj h⟩).output_open_name "x" = OpenResult.NotAvailable := by
    intro j hj
    cases j with
    | zero => rfl
    | succ n => exact absurd hj (by omega)
  have hd : ((([naProvider, okProvider] : List (IoProvider String Nat Nat Unit)).get
      ⟨1, h⟩).output_open_name "x").definitive := Or.inl ⟨7, rfl⟩
  have hmain := (iostack_first_definitive_wins String Nat Nat Unit
    [naProvider, okProvider] 1 h).1 "x" hb hd
  exact hmain.1.trans rfl

/-- Claim C2: if the provider at index `i` returns `Error` for a call and the
provider at index `i + 1` would return `Success` for the same call, the stack
still returns the `Error`; an earlier provider's error is never replaced by a
later provider's success, for any of the five capability operations. -/
theorem iostack_error_not_overridden (E Hi Ho St : Type)
    (ps : List (IoProvider E Hi Ho St)) (i : Nat) (h : i + 1 < ps.length) :
    (∀ (name : String) (e : E) (hdl : Ho),
      (∀ j (hj : j < i),
        (ps.get ⟨j, Nat.lt_trans hj (Nat.lt_of_succ_lt h)⟩).output_open_name name =
          OpenResult.NotAvailable) →
      (ps.get ⟨i, Nat.lt_of_succ_lt h⟩).output_open_name name = OpenResult.Error e →
      (ps.get ⟨i + 1, h⟩).output_open_name name = OpenResult.Success hdl →
      (IoStack.new ps).output_open_name name = OpenResult.Error e) ∧
    (∀ (e : E) (hdl : Ho),
      (∀ j (hj : j < i),
        (ps.get ⟨j, Nat.lt_trans hj (Nat.lt_of_succ_lt h)⟩).output_open_stdout =
          OpenResult.NotAvailable) →
      (ps.get ⟨i, Nat.lt_of_succ_lt h⟩).output_open_stdout = OpenResult.Error e →
      (ps.get ⟨i + 1, h⟩).output_open_stdout = OpenResult.Success hdl →
      (IoStack.new ps).output_open_stdout = OpenResult.Error e) ∧
    (∀ (name : String) (status : St) (e : E) (hdl : Hi),
      (∀ j (hj : j < i),
        (ps.get ⟨j, Nat.lt_trans hj (Nat.lt_of_succ_lt h)⟩).input_open_name name status =
          OpenResult.NotAvailable) →
      (ps.get ⟨i, Nat.lt_of_succ_lt h⟩).input_open_name name status = OpenResult.Error e →
      (ps.get ⟨i + 1, h⟩).input_open_name name status = OpenResult.Success hdl →
      (IoStack.new ps).input_open_name name status = OpenResult.Error e) ∧
    (∀ (status : St) (e : E) (hdl : Hi),
      (∀ j (hj : j < i),
        (ps.get ⟨j, Nat.lt_trans hj (Nat.lt_of_succ_lt h)⟩).input_open_primary status =
          OpenResult.NotAvailable) →
      (ps.get ⟨i, Nat.lt_of_succ_lt h⟩).input_open_primary status = OpenResult.Error e →
      (ps.get ⟨i + 1, h⟩).input_open_primary status = OpenResult.Success hdl →
      (IoStack.new ps).input_open_primary status = OpenResult.Error e) ∧
    (∀ (name : String) (status : St) (e : E) (hdl : Hi),
      (∀ j (hj : j < i),
        (ps.get ⟨j, Nat.lt_trans hj (Nat.lt_of_succ_lt h)⟩).input_open_format name status =
          OpenResult.NotAvailable) →
      (ps.get ⟨i, Nat.lt_of_succ_lt h⟩).input_open_format name status = OpenResult.Error e →
      (ps.get ⟨i + 1, h⟩).input_open_format name status = OpenResult.Success hdl →
      (IoStack.new ps).input_open_format name status = OpenResult.Error e) := by
  have key : ∀ (H : Type) (f : IoProvider E Hi Ho St → OpenResult E H) (e : E),
      (∀ j (hj : j < i),
        f (ps.get ⟨j, Nat.lt_trans hj (Nat.lt_of_succ_lt h)⟩) = OpenResult.NotAvailable) →
      f (ps.get ⟨i, Nat.lt_of_succ_lt h⟩) = OpenResult.Error e →
      tryEach f ps = OpenResult.Error e := by
    intro H f e hb he
    have hd : f (ps.get ⟨i, Nat.lt_of_succ_lt h⟩) ≠ OpenResult.NotAvailable := by
      rw [he]; exact fun hc => OpenResult.noConfusion hc
    exact (tryEach_first_def f ps i (Nat.lt_of_succ_lt h) hb hd).trans he
  exact ⟨fun name e hdl hb he _ => key Ho (fun item => item.output_open_name name) e hb he,
         fun e hdl hb he _ => key Ho (fun item => item.output_open_stdout) e hb he,
         fun name status e hdl hb he _ => key Hi (fun item => item.input_open_name name status) e hb he,
         fun status e hdl hb he _ => key Hi (fun item => item.input_open_primary status) e hb he,
         fun name status e hdl hb he _ => key Hi (fun item => item.input_open_format name status) e hb he⟩

/-- Concrete instantiation of `iostack_error_not_overridden`: provider 0
forbids `../secret` while provider 1 would succeed, and the stack returns
the forbidden error. -/
theorem iostack_error_not_overridden_witness :
    (IoStack.new [forbidProvider, okProvider]).output_open_name "../secret" =
      OpenResult.Error "forbidden" := by
  have h : (0 : Nat) + 1 < ([forbidProvider, okProvider] :
      List (IoProvider String Nat Nat Unit)).length := by decide
  exact (iostack_error_not_overridden String Nat Nat Unit [forbidProvider, okProvider] 0 h).1
    "../secret" "forbidden" 7 (fun j hj => absurd hj (Nat.not_lt_zero j)) rfl rfl

/-- Claim C3: for every `IoStack` and each of the five capability operations,
if every provider in the stack returns `NotAvailable` for the call, the stack
returns `NotAvailable`. -/
theorem iostack_all_notavailable (E Hi Ho St : Type)
    (ps : List (IoProvider E Hi Ho St)) :
    (∀ name : String,
      (∀ p ∈ ps, p.output_open_name name = OpenResult.NotAvailable) →
      (IoStack.new ps).output_open_name name = OpenResult.NotAvailable) ∧
    ((∀ p ∈ ps, p.output_open_stdout = OpenResult.NotAvailable) →
      (IoStack.new ps).output_open_stdout = OpenResult.NotAvailable) ∧
    (∀ (name : String) (status : St),
      (∀ p ∈ ps, p.input_open_name name status = OpenResult.NotAvailable) →
      (IoStack.new ps).input_open_name name status = OpenResult.NotAvailable) ∧
    (∀ status : St,
      (∀ p ∈ ps, p.input_open_primary status = OpenResult.NotAvailable) →
      (IoStack.new ps).input_open_primary status = OpenResult.NotAvailable) ∧
    (∀ (name : String) (status : St),
      (∀ p ∈ ps, p.input_open_format name status = OpenResult.NotAvailable) →
      (IoStack.new ps).input_open_format name status = OpenResult.NotAvailable) :=
  ⟨fun name hall => tryEach_all_na (fun item => item.output_open_name name) ps hall,
   fun hall => tryEach_all_na (fun item => item.output_open_stdout) ps hall,
   fun name status hall => tryEach_all_na (fun item => item.input_open_name name status) ps hall,
   fun status hall => tryEach_all_na (fun item => item.input_open_primary status) ps hall,
   fun name status hall => tryEach_all_na (fun item => item.input_open_format name status) ps hall⟩

/-- Concrete instantiation of `iostack_all_notavailable`: a stack over one
provider with no opinion returns `NotAvailable` for a named input. -/
theorem iostack_all_notavailable_witness :
    (IoStack.new [naProvider]).input_open_name "a.tex" () = OpenResult.NotAvailable := by
  refine (iostack_all_notavailable String Nat Nat Unit [naProvider]).2.2.1 "a.tex" () ?_
  intro p hp
  rw [List.mem_singleton.mp hp]
  rfl

/-- Claim C5: within one dispatch call an `IoStack` invokes its providers
strictly in the order supplied at construction — the sequence of consulted
providers is an initial prefix, in order, of the constructed list — and
consequently with provider 0 holding `a.tex` with content `X` and provider 1
holding `a.tex` with content `Y`, opening `a.tex` through the stack yields
content `X`. -/
theorem iostack_order_and_shadow :
    (∀ (E Hi Ho St : Type) (ps : List (IoProvider E Hi Ho St)) (name : String) (status : St),
      (∃ k, k ≤ ps.length ∧ (IoStack.new ps).input_open_name_invoked name status = ps.take k) ∧
      (∃ k, k ≤ ps.length ∧ (IoStack.new ps).output_open_name_invoked name = ps.take k)) ∧
    (IoStack.new [(fileProvider [("a.tex", "X")] : IoProvider Unit String Unit Unit),
        fileProvider [("a.tex", "Y")]]).input_open_name "a.tex" () =
      OpenResult.Success "X" := by
  refine ⟨fun E Hi Ho St ps name status =>
    ⟨tryEachInvoked_isTake (fun item => item.input_open_name name status) ps,
     tryEachInvoked_isTake (fun item => item.output_open_name name) ps⟩, ?_⟩
  rfl

/-- Claim C10: an `IoStack` constructed from the empty provider list returns
`NotAvailable` from each of the five capability operations, for every
input. -/
theorem iostack_empty_notavailable (E Hi Ho St : Type) (name : String) (status : St) :
    (IoStack.new ([] : List (IoProvider E Hi Ho St))).output_open_name name =
      OpenResult.NotAvailable ∧
    (IoStack.new ([] : List (IoProvider E Hi Ho St))).output_open_stdout =
      OpenResult.NotAvailable ∧
    (IoStack.new ([] : List (IoProvider E Hi Ho St))).input_open_name name status =
      OpenResult.NotAvailable ∧
    (IoStack.new ([] : List (IoProvider E Hi Ho St))).input_open_primary status =
      OpenResult.NotAvailable ∧
    (IoStack.new ([] : List (IoProvider E Hi Ho St))).input_open_format name status =
      OpenResult.NotAvailable :=
  ⟨rfl, rfl, rfl, rfl, rfl⟩

/-- Claim C4: the pass-dependency detector observes the opens of one
compilation pass; a pass that reads a file and then writes it with unchanged
content reports `Converged`, while writing changed content reports
`NeedsAnotherPass`. -/
theorem detector_read_write_convergence (n c c2 : String) :
    passVerdict [⟨n, AccessKind.Read, c⟩, ⟨n, AccessKind.Write, c⟩] =
      PassVerdict.Converged ∧
    (c ≠ c2 →
      passVerdict [⟨n, AccessKind.Read, c⟩, ⟨n, AccessKind.Write, c2⟩] =
        PassVerdict.NeedsAnotherPass) := by
  constructor
  · simp [passVerdict, needsAnotherPass]
  · intro hne
    simp [passVerdict, needsAnotherPass, bne_iff_ne, hne]

/-- Concrete instantiation of `detector_read_write_convergence` on the
spec's `toc.aux` scenario. -/
theorem detector_read_write_convergence_witness :
    passVerdict [⟨"toc.aux", AccessKind.Read, "C1"⟩, ⟨"toc.aux", AccessKind.Write, "C1"⟩] =
      PassVerdict.Converged ∧
    passVerdict [⟨"toc.aux", AccessKind.Read, "C1"⟩, ⟨"toc.aux", AccessKind.Write, "C2"⟩] =
      PassVerdict.NeedsAnotherPass :=
  ⟨(detector_read_write_convergence "toc.aux" "C1" "C2").1,
   (detector_read_write_convergence "toc.aux" "C1" "C2").2 (by decide)⟩

/-- Claim C6: the fallback renderer `dump_uncolorized` emits one line per
item of the error chain, most specific first, prefixing the first line with
`error:` and every subsequent line with `caused by:`; an error built by
wrapping an underlying failure with a context message renders at least two
lines, the first carrying the context message and the second the underlying
cause's message. -/
theorem dump_uncolorized_chain_lines :
    (∀ e : ChainedError, e.backtr = none →
      e.dump_uncolorized = ("error: " ++ e.kind.display) ::
        (causeMessages e).map (fun m => "caused by: " ++ m)) ∧
    (∀ (u : ChainedError) (ctx : String), u.backtr = none →
      2 ≤ (u.chain_err ctx).dump_uncolorized.length ∧
      (u.chain_err ctx).dump_uncolorized.getD 0 "" = "error: " ++ ctx ∧
      (u.chain_err ctx).dump_uncolorized.getD 1 "" = "caused by: " ++ u.kind.display) := by
  have hgen : ∀ e : ChainedError, e.backtr = none →
      e.dump_uncolorized = ("error: " ++ e.kind.display) ::
        (causeMessages e).map (fun m => "caused by: " ++ m) := by
    intro e hb
    unfold ChainedError.dump_uncolorized
    rw [hb, errorIter_eq e]
    simp [dumpLoop, dumpLoop_caused_by]
  refine ⟨hgen, ?_⟩
  intro u ctx hb
  have hb2 : (u.chain_err ctx).backtr = none := by
    show u.backtr = none
    exact hb
  have hs := hgen (u.chain_err ctx) hb2
  have hkind : (u.chain_err ctx).kind = ErrorKind.Msg ctx := rfl
  have hcm : causeMessages (u.chain_err ctx) = errorIter u := rfl
  rw [hkind, hcm, errorIter_eq u] at hs
  rw [hs]
  refine ⟨?_, rfl, rfl⟩
  simp

/-- Concrete instantiation of `dump_uncolorized_chain_lines`: wrapping an
I/O failure with the context `while opening input foo.tex` renders the
context on the first line and the cause on the second. -/
theorem dump_uncolorized_chain_lines_witness :
    ((ChainedError.mk (ErrorKind.Msg "io fail") none none).chain_err
        "while opening input foo.tex").dump_uncolorized.getD 0 "" =
      "error: while opening input foo.tex" ∧
    ((ChainedError.mk (ErrorKind.Msg "io fail") none none).chain_err
        "while opening input foo.tex").dump_uncolorized.getD 1 "" =
      "caused by: io fail" := by
  have h := dump_uncolorized_chain_lines.2
    (ChainedError.mk (ErrorKind.Msg "io fail") none none) "while opening input foo.tex" rfl
  exact ⟨h.2.1, h.2.2.trans (by decide)⟩

/-- Claim C7: two independently constructed message-style errors with the
same message text are `definitely_same` even when their backtraces or cause
chains differ, because only the top-level kind is compared; and an `Err`
result and an `Ok` result are never `definitely_same`. -/
theorem definitely_same_msg_and_result :
    (∀ (s : String) (b1 b2 : Option String) (c1 c2 : Option ChainedError),
      (ChainedError.mk (ErrorKind.Msg s) b1 c1).definitely_same
        (ChainedError.mk (ErrorKind.Msg s) b2 c2) = true) ∧
    (∀ (T E : Type) [DefinitelySame T] [DefinitelySame E] (t : T) (e : E),
      (StdResult.Err e : StdResult T E).definitely_same (StdResult.Ok t) = false ∧
      (StdResult.Ok t : StdResult T E).definitely_same (StdResult.Err e) = false) := by
  constructor
  · intro s b1 b2 c1 c2
    simp [ChainedError.definitely_same, ChainedError.kind, ErrorKind.definitely_same]
  · intro T E _ _ t e
    exact ⟨rfl, rfl⟩

/-- Claim C8: the error type provides the kinds `BadLength`, `NotSeekable`,
`NotSizeable` and `PathForbidden` plus foreign-linked kinds for external
failures (I/O, integer parse, network, archive, config-parse), each distinct
from the plain message kind; `BadLength` and `PathForbidden` render with the
exact display strings of the source. -/
theorem errorkind_kinds_and_display :
    (∀ expected observed : Nat, (ErrorKind.BadLength expected observed).display =
      "expected length " ++ Nat.repr expected ++ "; found " ++ Nat.repr observed) ∧
    ErrorKind.NotSeekable.display = "this stream is not seekable" ∧
    ErrorKind.NotSizeable.display = "the size of this stream cannot be determined" ∧
    (∀ path : String, (ErrorKind.PathForbidden path).display =
      "access to the path " ++ path ++ " is forbidden") ∧
    (∀ m : String, ErrorKind.Io m ≠ ErrorKind.Msg m ∧
      ErrorKind.ParseInt m ≠ ErrorKind.Msg m ∧
      ErrorKind.Hyper m ≠ ErrorKind.Msg m ∧
      ErrorKind.Zip m ≠ ErrorKind.Msg m ∧
      ErrorKind.TomlDe m ≠ ErrorKind.Msg m) :=
  ⟨fun _ _ => rfl, rfl, rfl, fun _ => rfl,
   fun m => ⟨fun h => ErrorKind.noConfusion h, fun h => ErrorKind.noConfusion h,
     fun h => ErrorKind.noConfusion h, fun h => ErrorKind.noConfusion h,
     fun h => ErrorKind.noConfusion h⟩⟩

/-- Claim C9: `definitely_same` on `ErrorKind` is not reflexive — every kind
that is not of the `Msg` form compares unequal to itself — and only `Msg`
kinds can ever be `definitely_same`. -/
theorem definitely_same_not_reflexive :
    (∀ k : ErrorKind, (∀ s, k ≠ ErrorKind.Msg s) →
      k.definitely_same k = false) ∧
    (∀ k1 k2 : ErrorKind, k1.definitely_same k2 = true →
      ∃ s, k1 = ErrorKind.Msg s ∧ k2 = ErrorKind.Msg s) := by
  constructor
  · intro k h
    cases k <;> first | rfl | exact absurd rfl (h _)
  · intro k1 k2 hds
    cases k1 <;> try exact Bool.noConfusion hds
    rename_i s
    cases k2 <;> try exact Bool.noConfusion hds
    rename_i o
    exact ⟨s, rfl, by rw [eq_of_beq hds]⟩

/-- Concrete instantiation of `definitely_same_not_reflexive`: `NotSeekable`
is not `definitely_same` as itself, while two equal `Msg` kinds are. -/
theorem definitely_same_not_reflexive_witness :
    ErrorKind.NotSeekable.definitely_same ErrorKind.NotSeekable = false ∧
    ∃ s, ErrorKind.Msg "x" = ErrorKind.Msg s ∧ ErrorKind.Msg "x" = ErrorKind.Msg s :=
  ⟨definitely_same_not_reflexive.1 ErrorKind.NotSeekable
      (fun s h => ErrorKind.noConfusion h),
   definitely_same_not_reflexive.2 (ErrorKind.Msg "x") (ErrorKind.Msg "x") (by decide)⟩
